import Mathlib

/-!
Shallow embedding of the plugin execution scheduler
(`python/lsst/meas/base/catalogCalculation.py`) and of the aperture
correction applier (`python/lsst/meas/base/applyApCorr.py`) from the
`meas_base` repository, together with proofs of the behavioural claims
about them.

Conventions of the embedding:
* Python floats are modelled as rationals (`ℚ`); all the claims under
  study are about exact algebraic relationships.
* Python exceptions are modelled by an explicit exception-type datatype;
  a raised exception is the `some` case of an `Option ExcType`.
* The mutable source table is modelled by explicit state passing:
  a record is a structure and every mutation returns the updated record.
* Python `sorted` is a stable sort; it is modelled by a stable insertion
  sort (`stableSort`), which is proved sorted below.
-/

/-! ### Exception model -/

/-- Exception types as classified by the scheduler. The classification in
`CCContext.__exit__` uses exact type identity (`exc_type in FATAL_EXCEPTIONS`
is tuple membership by type equality, and `exc_type is MeasurementError` is
an identity test), so a strict subclass of one of the special categories is
a distinct type. The constructor `childOf p` represents a strict subclass of
the type `p`; `otherError` is any unrelated exception type. -/
inductive ExcType where
  | memoryError : ExcType
  | fatalAlgorithmError : ExcType
  | measurementError : ExcType
  | childOf : ExcType → ExcType
  | otherError : ExcType
  deriving DecidableEq

/-- Exceptions that the measurement tasks should always propagate up to
their callers (`FATAL_EXCEPTIONS` in `catalogCalculation.py`, line 12). -/
def FATAL_EXCEPTIONS : List ExcType :=
  [ExcType.memoryError, ExcType.fatalAlgorithmError]

/-- What the guarded scope does after the wrapped plugin invocation:
nothing (no exception was raised, the context manager returns `True`),
re-raise the exception, call the failing plugin `fail` method, or log a
warning. -/
inductive ExitAction where
  | suppress : ExitAction
  | reraise : ExitAction
  | callFail : ExitAction
  | warn : ExitAction
  deriving DecidableEq

/-- Embedding of `CCContext.__exit__` (`catalogCalculation.py`, lines
125-134): given the type of the raised exception (or `none` when the body
succeeded), decide how it is handled. -/
def ccExit : Option ExcType → ExitAction
  | none => ExitAction.suppress
  | some t =>
    if t ∈ FATAL_EXCEPTIONS then ExitAction.reraise
    else if t = ExcType.measurementError then ExitAction.callFail
    else ExitAction.warn

/-! ### Plugins and the execution scheduler -/

/-- The argument a plugin invocation receives: the whole catalog (for a
`multi` plugin) or the record at a given index (for a `single` plugin). -/
inductive PlugTarget where
  | catalog : PlugTarget
  | record : Nat → PlugTarget
  deriving DecidableEq

/-- A constructed catalog calculation plugin instance. Since the claims
under study are about scheduling and error handling only, the observable
behaviour of a plugin invocation is whether `calculate` raises, and which
exception type it raises, on a given target. -/
structure CCPlugin where
  name : String
  raises : PlugTarget → Option ExcType

/-- One entry of the run trace: a plugin invocation (identified by plugin
name and target) together with the action the guarded scope took on it. -/
structure CCEvent where
  plugin : String
  target : PlugTarget
  action : ExitAction
  deriving DecidableEq

/-- The action the guarded scope takes for one invocation. -/
def invAction (pt : CCPlugin × PlugTarget) : ExitAction :=
  ccExit (pt.1.raises pt.2)

/-- The trace event recorded for one invocation. -/
def evOf (pt : CCPlugin × PlugTarget) : CCEvent :=
  ⟨pt.1.name, pt.2, invAction pt⟩

/-- Boolean predicate: the invocation is not classified as fatal. -/
def nonFatalPT (pt : CCPlugin × PlugTarget) : Bool :=
  !(invAction pt = ExitAction.reraise : Bool)

/-- Run a sequence of guarded plugin invocations in order (each one is
`with CCContext(plug, target): plug.calculate(target)`). Returns the trace
of handled invocations and, when some invocation raised a fatal exception,
the re-raised exception (processing stops there, matching the propagation
of the re-raised exception out of the enclosing loops). -/
def runPlugins : List (CCPlugin × PlugTarget) → List CCEvent × Option ExcType
  | [] => ([], none)
  | pt :: rest =>
    if invAction pt = ExitAction.reraise then ([evOf pt], pt.1.raises pt.2)
    else
      let r := runPlugins rest
      (evOf pt :: r.1, r.2)

/-- One execution-order bucket of the scheduler (the `pluginType`
namedtuple of `initializePlugins`): the record-mode (`single`) and the
catalog-mode (`multi`) plugin instances at one run level. -/
structure CCBucket where
  single : List CCPlugin
  multi : List CCPlugin

/-- The catalog-mode invocations of a bucket: every `multi` plugin, once,
with the whole catalog (`catalogCalculation.py`, lines 231-233). -/
def bucketMultiInvs (b : CCBucket) : List (CCPlugin × PlugTarget) :=
  b.multi.map (fun p => (p, PlugTarget.catalog))

/-- The record-mode invocations of a bucket: outer loop over the records
of the catalog, inner loop over the `single` plugins
(`catalogCalculation.py`, lines 235-238). -/
def bucketSingleInvs (b : CCBucket) (nRecords : Nat) : List (CCPlugin × PlugTarget) :=
  (List.range nRecords).flatMap (fun i => b.single.map (fun p => (p, PlugTarget.record i)))

/-- All invocations of one bucket, in execution order: catalog-mode
plugins first, then the record-mode plugins per record. -/
def bucketInvs (b : CCBucket) (nRecords : Nat) : List (CCPlugin × PlugTarget) :=
  bucketMultiInvs b ++ bucketSingleInvs b nRecords

/-- Stable insertion of an element into a list: `x` is placed before the
first element `y` with `¬ (le y x)`. With a total `le` this inserts after
any elements equal to `x`, which is what makes the sort stable. -/
def stableInsert (le : α → α → Bool) (x : α) : List α → List α
  | [] => [x]
  | y :: ys => if le y x && !(le x y) then y :: stableInsert le x ys else x :: y :: ys

/-- Stable sort, modelling the Python builtin `sorted`. -/
def stableSort (le : α → α → Bool) : List α → List α
  | [] => []
  | x :: xs => stableInsert le x (stableSort le xs)

/-- Key comparison used by `sorted(self.executionDict)`: the execution
dictionary is iterated in ascending key (execution order) order. -/
def bucketKeyLE (a b : ℚ × CCBucket) : Bool := decide (a.1 ≤ b.1)

/-- The buckets of the execution dictionary, in ascending execution-order.
This models the `sorted(self.executionDict)` iteration of `callCompute`. -/
def sortedBuckets (execDict : List (ℚ × CCBucket)) : List (ℚ × CCBucket) :=
  stableSort bucketKeyLE execDict

/-- Run the buckets in the given order, one after the other; a fatal
exception raised inside a bucket propagates and aborts the remaining
buckets. -/
def runBuckets : List (ℚ × CCBucket) → Nat → List CCEvent × Option ExcType
  | [], _ => ([], none)
  | kb :: rest, n =>
    let r := runPlugins (bucketInvs kb.2 n)
    match r.2 with
    | some e => (r.1, some e)
    | none =>
      let r2 := runBuckets rest n
      (r.1 ++ r2.1, r2.2)

/-- Embedding of `CatalogCalculationTask.callCompute`
(`catalogCalculation.py`, lines 221-238): iterate the buckets of the
execution dictionary in ascending execution order; in each bucket invoke
every catalog-mode plugin with the whole catalog, then invoke each
record-mode plugin once per record; each invocation is wrapped in the
`CCContext` guard. The catalog is abstracted by its number of records
(`nRecords`); plugin behaviour is carried by the plugin instances. -/
def callCompute (execDict : List (ℚ × CCBucket)) (nRecords : Nat) :
    List CCEvent × Option ExcType :=
  runBuckets (sortedBuckets execDict) nRecords

/-- The full list of invocations `callCompute` performs when nothing
aborts: buckets in ascending key order, each contributing its catalog-mode
invocations followed by its per-record record-mode invocations. -/
def ccSchedule (execDict : List (ℚ × CCBucket)) (nRecords : Nat) :
    List (CCPlugin × PlugTarget) :=
  (sortedBuckets execDict).flatMap (fun kb => bucketInvs kb.2 nRecords)

/-- Sequential composition of two abortable runs: if the first one
aborted, its result stands; otherwise the traces concatenate and the
outcome is the second one. -/
def seqAbort (x y : List CCEvent × Option ExcType) : List CCEvent × Option ExcType :=
  match x.2 with
  | some e => (x.1, some e)
  | none => (x.1 ++ y.1, y.2)

/-! ### Scheduler construction (`initializePlugins`) -/

/-- Minimum execution order for a catalog calculation plugin
(`BasePlugin.DEFAULT_CATALOGCALCULATION`). Modelled from the spec: the
class `BasePlugin` lives in `pluginsBase.py`, which is not among the
source files; the spec describes the value only as a fixed,
non-user-configurable minimum threshold, and none of the claims depend on
its numeric value. The value 4 is used so that the embedding is fully
executable. -/
def DEFAULT_CATALOGCALCULATION : ℚ := 4

/-- One resolved entry of the plugin configuration, as produced by
`self.config.plugins.apply()`: the tuple
`(executionOrder, name, config, PluginClass)`. Per the registry contract,
`executionOrder` is the value of `PluginClass.getExecutionOrder()`. The
`config` component and the constructed instance are abstracted into the
behaviour `raises` of the instance that construction would produce;
`plugType` is the class attribute of the same name (`"single"` or
`"multi"`). -/
structure PluginSpec where
  executionOrder : ℚ
  name : String
  plugType : String
  raises : PlugTarget → Option ExcType

/-- Comparison used by `sorted(self.config.plugins.apply())`: Python
sorts the tuples `(executionOrder, name, ...)` lexicographically; the
execution order is compared first and the name breaks ties. -/
def specLE (a b : PluginSpec) : Bool :=
  decide (a.executionOrder < b.executionOrder ∨
    (a.executionOrder = b.executionOrder ∧ a.name ≤ b.name))

/-- The plugin specifications in the order `initializePlugins` processes
them. -/
def sortSpecs (specs : List PluginSpec) : List PluginSpec :=
  stableSort specLE specs

/-- Allocate an (empty) bucket for a run level if it does not exist yet
(`if executionOrder not in self.executionDict`). -/
def dictAlloc (d : List (ℚ × CCBucket)) (k : ℚ) : List (ℚ × CCBucket) :=
  if (d.lookup k).isSome then d else d ++ [(k, ⟨[], []⟩)]

/-- Append a constructed plugin instance to the list of its bucket that
matches its `plugType` (any other `plugType` value is silently ignored by
the `if`/`elif` of the source). -/
def bucketAdd (b : CCBucket) (plugType : String) (p : CCPlugin) : CCBucket :=
  if plugType = "single" then { b with single := b.single ++ [p] }
  else if plugType = "multi" then { b with multi := b.multi ++ [p] }
  else b

/-- Append a constructed plugin instance to the bucket of key `k`. -/
def dictAdd (d : List (ℚ × CCBucket)) (k : ℚ) (plugType : String) (p : CCPlugin) :
    List (ℚ × CCBucket) :=
  d.map (fun kb => if kb.1 = k then (kb.1, bucketAdd kb.2 plugType p) else kb)

/-- The loop body of `initializePlugins` over the sorted plugin
specifications. The state carries the execution dictionary built so far
and the names of the plugin instances constructed so far; raising the
`ValueError` is modelled by an `Except.error` that carries the list of
instances constructed before the raise, so that claims about what was
constructed at the time of the error can be stated. -/
def initPluginsGo : List PluginSpec → List (ℚ × CCBucket) → List String →
    Except (List String × String) (List (ℚ × CCBucket) × List String)
  | [], d, constructed => Except.ok (d, constructed)
  | s :: rest, d, constructed =>
    let d1 := dictAlloc d s.executionOrder
    if s.executionOrder ≥ DEFAULT_CATALOGCALCULATION then
      initPluginsGo rest (dictAdd d1 s.executionOrder s.plugType ⟨s.name, s.raises⟩)
        (constructed ++ [s.name])
    else
      Except.error (constructed,
        s.name ++ " has an execution order less than the minimum for an catalogCalculation plugin")

/-- Embedding of `CatalogCalculationTask.initializePlugins`
(`catalogCalculation.py`, lines 185-208): iterate the resolved plugin
configuration in sorted order; allocate the run-level bucket; if the
execution order of the plugin class is at least
`DEFAULT_CATALOGCALCULATION`, construct the plugin instance and insert it
into its bucket by dispatch mode, otherwise raise a `ValueError`. -/
def initPlugins (specs : List PluginSpec) :
    Except (List String × String) (List (ℚ × CCBucket) × List String) :=
  initPluginsGo (sortSpecs specs) [] []

/-! ### Aperture correction: run-time data model -/

/-- Global flag of `applyApCorr.py` (line 36): if `True` the instFlux
error is scaled by the aperture correction; if `False` a more complex
computation is used. -/
def UseNaiveFluxErr : Bool := true

/-- One source record, restricted to the fields that the aperture
correction of one flux field reads or writes: the instFlux and its error,
the general flux failure flag, the two aperture correction output columns
of this field, the aperture correction failure flag of this field, and the
centroid. -/
structure SourceRecord where
  instFlux : ℚ
  instFluxErr : ℚ
  fluxFlag : Bool
  apCorrCol : ℚ
  apCorrErrCol : ℚ
  apCorrFlag : Bool
  centroid : ℚ × ℚ
  deriving DecidableEq

/-- A spatially evaluable model from the aperture correction map:
evaluation at a position either yields a scalar or raises
`lsst.pex.exceptions.DomainError` (the `none` case). -/
def ApCorrModel : Type := ℚ × ℚ → Option ℚ

/-- The part of an `ApCorrInfo` that `ApplyApCorrTask.run` consumes: the
two model field names looked up in the aperture correction map, and
whether this info owns (non-aliased) aperture correction output columns. -/
structure ApCorrFieldInfo where
  name : String
  modelName : String
  modelSigmaName : String
  doApCorrColumn : Bool

/-- Embedding of the per-source body of `ApplyApCorrTask.run`
(`applyApCorr.py`, lines 230-266), for one source and one field.

The parameters: `doFlagApCorrFailures` is `self.config.doFlagApCorrFailures`;
`useNaive` is the global `UseNaiveFluxErr`; `complexErr` abstracts the
non-naive flux error expression
`abs(instFlux*apCorr)*math.sqrt(a*a + b*b)` (its real square root has no
rational embedding; the naive branch, which is the one selected by the
global flag, never calls it); `doApCorrColumn` is the field of the
`ApCorrInfo`; the two models come from the aperture correction map.

Returns the updated record together with the final values of the local
variables `apCorr` and `apCorrErr`. -/
def correctSource (doFlagApCorrFailures useNaive : Bool)
    (complexErr : ℚ → ℚ → ℚ → ℚ → ℚ) (doApCorrColumn : Bool)
    (apCorrModel apCorrErrModel : ApCorrModel)
    (source : SourceRecord) : SourceRecord × ℚ × ℚ :=
  let center := source.centroid
  -- say we have failed when we start; the flags are unset on success
  let s0 := { source with apCorrFlag := true }
  let oldFluxFlagState := if doFlagApCorrFailures then source.fluxFlag else false
  let s1 := if doFlagApCorrFailures then { s0 with fluxFlag := true } else s0
  -- apCorr = 1.0; apCorrErr = 0.0; try: evaluate the models at the center
  match apCorrModel center with
  | none => (s1, 1, 0)
  | some apCorr =>
    match (if useNaive then some 0 else apCorrErrModel center : Option ℚ) with
    | none => (s1, apCorr, 0)
    | some apCorrErr =>
      let s2 :=
        if doApCorrColumn then { s1 with apCorrCol := apCorr, apCorrErrCol := apCorrErr }
        else s1
      if apCorr ≤ 0 ∨ apCorrErr < 0 then (s2, apCorr, apCorrErr)
      else
        let instFlux := s2.instFlux
        let instFluxErr := s2.instFluxErr
        let s3 := { s2 with instFlux := instFlux * apCorr }
        let s4 :=
          if useNaive then { s3 with instFluxErr := instFluxErr * apCorr }
          else { s3 with instFluxErr := complexErr instFlux instFluxErr apCorr apCorrErr }
        let s5 := { s4 with apCorrFlag := false }
        let s6 := if doFlagApCorrFailures then { s5 with fluxFlag := oldFluxFlagState } else s5
        (s6, apCorr, apCorrErr)

/-- The model names this field needs that are missing from the aperture
correction map (used to build the warning of lines 222-225). -/
def missingModelNames (info : ApCorrFieldInfo) (apCorrMap : String → Option ApCorrModel) :
    List String :=
  (if (apCorrMap info.modelName).isNone then [info.modelName] else []) ++
  (if (apCorrMap info.modelSigmaName).isNone then [info.modelSigmaName] else [])

/-- Embedding of the per-field body of `ApplyApCorrTask.run`
(`applyApCorr.py`, lines 218-266), for one `ApCorrInfo` over the whole
catalog: look up the value model and the error model in the aperture
correction map; if either is missing, warn once and set the aperture
correction failure flag of every source; otherwise run `correctSource` on
every source. Returns the updated catalog and the warning log. -/
def runField (doFlagApCorrFailures useNaive : Bool) (complexErr : ℚ → ℚ → ℚ → ℚ → ℚ)
    (info : ApCorrFieldInfo) (apCorrMap : String → Option ApCorrModel)
    (catalog : List SourceRecord) : List SourceRecord × List String :=
  match apCorrMap info.modelName, apCorrMap info.modelSigmaName with
  | some apCorrModel, some apCorrErrModel =>
    (catalog.map (fun source =>
      (correctSource doFlagApCorrFailures useNaive complexErr info.doApCorrColumn
        apCorrModel apCorrErrModel source).1), [])
  | _, _ =>
    (catalog.map (fun source => { source with apCorrFlag := true }),
     ["Cannot aperture correct " ++ info.name ++ " because could not find "
        ++ String.intercalate " or " (missingModelNames info apCorrMap) ++ " in apCorrMap"])

/-! ### Aperture correction: schema-construction data model (`ApCorrInfo`) -/

/-- A table schema: the ordered list of its (real) field names, a field
key being the index of the field in that list, together with the alias
map. An alias resolves a name to the name of another field. -/
structure Schema where
  fields : List String
  aliases : List (String × String)
  deriving DecidableEq

/-- Install an alias (`schema.getAliasMap().set(src, tgt)`); a later
binding for the same source name shadows an earlier one. -/
def Schema.setAlias (s : Schema) (src tgt : String) : Schema :=
  { s with aliases := (src, tgt) :: s.aliases }

/-- Resolve a name through the alias map. -/
def Schema.resolve (s : Schema) (n : String) : String :=
  match s.aliases.lookup n with
  | some tgt => tgt
  | none => n

/-- Look up the key of a field by name (`schema.find(name).key`), going
through the alias map. -/
def Schema.findKey (s : Schema) (n : String) : Option Nat :=
  s.fields.findIdx? (fun f => f == s.resolve n)

/-- Field membership test (`name in schema`). -/
def Schema.containsField (s : Schema) (n : String) : Bool :=
  (s.findKey n).isSome

/-- Add a new field at the end of the schema (`schema.addField`),
returning the updated schema and the key of the new field. -/
def Schema.addField (s : Schema) (n : String) : Schema × Nat :=
  ({ s with fields := s.fields ++ [n] }, s.fields.length)

/-- The attributes of an `ApCorrInfo` (field keys are schema indices). -/
structure ApCorrInfo where
  name : String
  modelName : String
  modelSigmaName : String
  instFluxName : String
  instFluxErrName : String
  instFluxKey : Nat
  instFluxErrKey : Nat
  fluxFlagKey : Nat
  doApCorrColumn : Bool
  apCorrKey : Nat
  apCorrErrKey : Nat
  apCorrFlagKey : Nat
  deriving DecidableEq

/-- Embedding of `ApCorrInfo.__init__` (`applyApCorr.py`, lines 100-136):
look up the input field keys; decide whether this info owns its aperture
correction output columns (`name == model or model + "_apCorr" not in
schema`); either add the two output columns, or install the two aliases to
the columns of the proxy model and reuse its keys; and always add a fresh
failure flag field. The `nameArg` parameter is the optional `name`
argument (`None` means `name = model`); `none` results of `schema.find`
model the `KeyError` the source would raise for a missing input field. -/
def ApCorrInfo.ofSchema (schema : Schema) (model : String) (nameArg : Option String) :
    Option (ApCorrInfo × Schema) := do
  let name := nameArg.getD model
  let instFluxKey ← schema.findKey (name ++ "_instFlux")
  let instFluxErrKey ← schema.findKey (name ++ "_instFluxErr")
  let fluxFlagKey ← schema.findKey (name ++ "_flag")
  -- No need to write the same aperture corrections multiple times
  if name == model || !(schema.containsField (model ++ "_apCorr")) then
    let r1 := schema.addField (name ++ "_apCorr")
    let r2 := r1.1.addField (name ++ "_apCorrErr")
    let r3 := r2.1.addField (name ++ "_flag_apCorr")
    some (⟨name, model ++ "_instFlux", model ++ "_instFluxErr",
      name ++ "_instFlux", name ++ "_instFluxErr",
      instFluxKey, instFluxErrKey, fluxFlagKey, true, r1.2, r2.2, r3.2⟩, r3.1)
  else
    let sA := schema.setAlias (name ++ "_apCorr") (model ++ "_apCorr")
    let sB := sA.setAlias (name ++ "_apCorrErr") (model ++ "_apCorrErr")
    let apCorrKey ← sB.findKey (name ++ "_apCorr")
    let apCorrErrKey ← sB.findKey (name ++ "_apCorrErr")
    let r3 := sB.addField (name ++ "_flag_apCorr")
    some (⟨name, model ++ "_instFlux", model ++ "_instFluxErr",
      name ++ "_instFlux", name ++ "_instFluxErr",
      instFluxKey, instFluxErrKey, fluxFlagKey, false, apCorrKey, apCorrErrKey, r3.2⟩, r3.1)

/-! ### Concrete instances used by witnesses and counterexamples -/

/-- A plugin whose `calculate` always succeeds. -/
def plugOk (nm : String) : CCPlugin := ⟨nm, fun _ => none⟩

/-- A plugin whose `calculate` raises a given exception type on every
target. -/
def plugRaises (nm : String) (e : ExcType) : CCPlugin := ⟨nm, fun _ => some e⟩

/-- A two-bucket execution dictionary (keys 6 and 5, given out of order)
with catalog-mode and record-mode plugins, one of which raises a
measurement error and one an unclassified error. -/
def wDict : List (ℚ × CCBucket) :=
  [(6, ⟨[plugOk "s2"], [plugRaises "m2" ExcType.otherError]⟩),
   (5, ⟨[plugOk "s1", plugRaises "s1b" ExcType.measurementError], [plugOk "m1"]⟩)]

/-- A plugin configuration with one entry below the minimum execution
order and one valid entry. -/
def w3Specs : List PluginSpec :=
  [⟨5, "good", "single", fun _ => none⟩, ⟨1, "bad", "single", fun _ => none⟩]

/-- A concrete stand-in for the abstracted non-naive flux error
computation (never reached while `UseNaiveFluxErr` is `true`). -/
def cErr0 : ℚ → ℚ → ℚ → ℚ → ℚ := fun _ _ _ _ => 0

/-- Field info of a concrete aperture-corrected flux field that owns its
output columns. -/
def wInfo : ApCorrFieldInfo :=
  ⟨"base_PsfFlux", "base_PsfFlux_instFlux", "base_PsfFlux_instFluxErr", true⟩

/-- A source with flux 100, flux error 5, and an already-set general flux
failure flag. -/
def wSource : SourceRecord := ⟨100, 5, true, 0, 0, true, (1, 2)⟩

/-- A model that evaluates to 11/10 (an aperture correction of 1.1)
everywhere. -/
def w4Vm : ApCorrModel := fun _ => some (11/10)

/-- A correction map whose models always evaluate to 11/10. -/
def wMap11 : String → Option ApCorrModel := fun _ => some w4Vm

/-- A model that evaluates to the invalid correction -1 everywhere. -/
def wNegVm : ApCorrModel := fun _ => some (-1)

/-- A correction map whose models always evaluate to -1. -/
def wMapNeg : String → Option ApCorrModel := fun _ => some wNegVm

/-- A model that raises a domain error everywhere. -/
def wDomVm : ApCorrModel := fun _ => none

/-- A correction map whose models raise a domain error everywhere. -/
def wMapDomErr : String → Option ApCorrModel := fun _ => some wDomVm

/-- A correction map with no models at all. -/
def wMapEmpty : String → Option ApCorrModel := fun _ => none

/-- A source with flux 0 (used to refute strict non-idempotence). -/
def w9Source : SourceRecord := ⟨0, 1, false, 0, 0, false, (0, 0)⟩

/-- A value model that evaluates to the correction 2 everywhere. -/
def w9Vm : ApCorrModel := fun _ => some 2

/-- A correction map whose models always evaluate to 2. -/
def w9Map : String → Option ApCorrModel := fun _ => some w9Vm

/-- A schema holding the input fields of two flux algorithms `A` and `B`
and no aperture correction columns yet. -/
def w8Schema : Schema :=
  ⟨["A_instFlux", "A_instFluxErr", "A_flag", "B_instFlux", "B_instFluxErr", "B_flag"], []⟩

/-! ### Helper lemmas: the stable sort -/

theorem mem_stableInsert (le : α → α → Bool) (x a : α) (l : List α) :
    a ∈ stableInsert le x l ↔ a = x ∨ a ∈ l := by
  induction l with
  | nil => simp [stableInsert]
  | cons y ys ih =>
    by_cases h : le y x && !(le x y)
    · simp only [stableInsert, if_pos h, List.mem_cons, ih]
      tauto
    · simp only [stableInsert, if_neg h, List.mem_cons]

theorem mem_stableSort (le : α → α → Bool) (a : α) (l : List α) :
    a ∈ stableSort le l ↔ a ∈ l := by
  induction l with
  | nil => simp [stableSort]
  | cons y ys ih => simp [stableSort, mem_stableInsert, ih]

theorem pairwise_stableInsert (le : α → α → Bool)
    (htrans : ∀ a b c, le a b = true → le b c = true → le a c = true)
    (total : ∀ a b, (le a b || le b a) = true) (x : α) (l : List α)
    (h : l.Pairwise (fun a b => le a b = true)) :
    (stableInsert le x l).Pairwise (fun a b => le a b = true) := by
  induction l with
  | nil => simp [stableInsert]
  | cons y ys ih =>
    rcases List.pairwise_cons.1 h with ⟨hy, hys⟩
    by_cases hc : (le y x && !(le x y)) = true
    · rw [stableInsert, if_pos hc]
      rw [Bool.and_eq_true] at hc
      refine List.pairwise_cons.2 ⟨?_, ih hys⟩
      intro z hz
      rcases (mem_stableInsert le x z ys).1 hz with hzx | hzys
      · subst hzx; exact hc.1
      · exact hy z hzys
    · rw [stableInsert, if_neg hc]
      have hxy : le x y = true := by
        have ht := total x y
        rw [Bool.or_eq_true] at ht
        rcases ht with h1 | h1
        · exact h1
        · cases hxyv : le x y with
          | true => rfl
          | false =>
            exact absurd (by rw [Bool.and_eq_true]
                             exact ⟨h1, by rw [hxyv]; rfl⟩) hc
      refine List.pairwise_cons.2 ⟨?_, h⟩
      intro z hz
      rcases List.mem_cons.1 hz with hzy | hzys
      · subst hzy; exact hxy
      · exact htrans x y z hxy (hy z hzys)

theorem pairwise_stableSort (le : α → α → Bool)
    (htrans : ∀ a b c, le a b = true → le b c = true → le a c = true)
    (total : ∀ a b, (le a b || le b a) = true) (l : List α) :
    (stableSort le l).Pairwise (fun a b => le a b = true) := by
  induction l with
  | nil => simp [stableSort]
  | cons y ys ih => exact pairwise_stableInsert le htrans total y _ ih

/-! ### Helper lemmas: the guarded runner -/

theorem raises_some_of_reraise (pt : CCPlugin × PlugTarget)
    (h : invAction pt = ExitAction.reraise) : ∃ e, pt.1.raises pt.2 = some e := by
  cases hr : pt.1.raises pt.2 with
  | none => rw [invAction, hr] at h; exact absurd h (by simp [ccExit])
  | some e => exact ⟨e, rfl⟩

theorem runPlugins_append (xs ys : List (CCPlugin × PlugTarget)) :
    runPlugins (xs ++ ys) = seqAbort (runPlugins xs) (runPlugins ys) := by
  induction xs with
  | nil => simp [runPlugins, seqAbort]
  | cons pt rest ih =>
    by_cases h : invAction pt = ExitAction.reraise
    · rcases raises_some_of_reraise pt h with ⟨e, he⟩
      simp [runPlugins, h, seqAbort, he]
    · cases hr : (runPlugins rest).2 with
      | none => simp [runPlugins, if_neg h, ih, seqAbort, hr]
      | some e => simp [runPlugins, if_neg h, ih, seqAbort, hr]

theorem runBuckets_eq_runPlugins (l : List (ℚ × CCBucket)) (n : Nat) :
    runBuckets l n = runPlugins (l.flatMap (fun kb => bucketInvs kb.2 n)) := by
  induction l with
  | nil => simp [runBuckets, runPlugins]
  | cons kb rest ih =>
    rw [List.flatMap_cons, runPlugins_append]
    cases hr : (runPlugins (bucketInvs kb.2 n)).2 with
    | none => simp [runBuckets, seqAbort, hr, ih]
    | some e => simp [runBuckets, seqAbort, hr, ih]

theorem runPlugins_characterization (l : List (CCPlugin × PlugTarget)) :
    runPlugins l =
      ((l.takeWhile nonFatalPT).map evOf ++ ((l.dropWhile nonFatalPT).take 1).map evOf,
        ((l.dropWhile nonFatalPT).head?).bind fun pt => pt.1.raises pt.2) := by
  induction l with
  | nil => simp [runPlugins]
  | cons pt rest ih =>
    by_cases h : invAction pt = ExitAction.reraise
    · have hnf : nonFatalPT pt = false := by simp [nonFatalPT, h]
      rw [runPlugins, if_pos h, List.takeWhile_cons, List.dropWhile_cons]
      simp [hnf]
    · have hnf : nonFatalPT pt = true := by simp [nonFatalPT, h]
      rw [runPlugins, if_neg h, List.takeWhile_cons, List.dropWhile_cons]
      simp [hnf, ih]

theorem runPlugins_noFatal (l : List (CCPlugin × PlugTarget))
    (h : ∀ pt ∈ l, invAction pt ≠ ExitAction.reraise) :
    runPlugins l = (l.map evOf, none) := by
  induction l with
  | nil => simp [runPlugins]
  | cons pt rest ih =>
    rw [runPlugins, if_neg (h pt (List.mem_cons_self pt rest))]
    rw [ih (fun q hq => h q (List.mem_cons_of_mem pt hq))]
    simp

/-! ### Claim C1 -/

/-- C1: for every plugin invocation made by `callCompute` through the
`CCContext` guard, a raised exception is handled by exactly one of three
policies: an exception whose type is in the fatal category
(`MemoryError`, `FatalAlgorithmError`) is re-raised and the run aborts
with no further invocation attempted; a `MeasurementError` causes the
failing plugin `fail` method to be invoked on its record or catalog and
processing continues; any other exception is logged as a warning naming
the plugin and processing continues, so that every remaining invocation of
the schedule is still attempted. Formally: the trace is exactly the
schedule up to and including the first fatal invocation (the whole
schedule when none is fatal), the propagated exception is the one raised
by that first fatal invocation, and the action taken on each invocation is
determined by the exact type of its exception as described. -/
theorem callCompute_error_policy (execDict : List (ℚ × CCBucket)) (nRecords : Nat) :
    ((callCompute execDict nRecords).1
        = ((ccSchedule execDict nRecords).takeWhile nonFatalPT).map evOf
            ++ (((ccSchedule execDict nRecords).dropWhile nonFatalPT).take 1).map evOf
      ∧ (callCompute execDict nRecords).2
        = ((ccSchedule execDict nRecords).dropWhile nonFatalPT).head?.bind
            (fun pt => pt.1.raises pt.2))
    ∧ ∀ pt : CCPlugin × PlugTarget,
        (invAction pt = ExitAction.reraise ↔
          (pt.1.raises pt.2 = some ExcType.memoryError ∨
            pt.1.raises pt.2 = some ExcType.fatalAlgorithmError))
        ∧ (invAction pt = ExitAction.callFail ↔
            pt.1.raises pt.2 = some ExcType.measurementError)
        ∧ (invAction pt = ExitAction.suppress ↔ pt.1.raises pt.2 = none)
        ∧ (invAction pt = ExitAction.warn ↔
            ∃ e, pt.1.raises pt.2 = some e ∧ e ∉ FATAL_EXCEPTIONS ∧
              e ≠ ExcType.measurementError) := by
  constructor
  · have h1 : callCompute execDict nRecords = runPlugins (ccSchedule execDict nRecords) := by
      rw [callCompute, ccSchedule, runBuckets_eq_runPlugins]
    rw [h1, runPlugins_characterization]
    exact ⟨rfl, rfl⟩
  · intro pt
    cases hr : pt.1.raises pt.2 with
    | none => simp [invAction, ccExit, hr, FATAL_EXCEPTIONS]
    | some e =>
      cases e <;> simp [invAction, ccExit, hr, FATAL_EXCEPTIONS]

/-! ### Claim C10 -/

/-- C10: the error classification of `CCContext.__exit__` matches
exception types exactly, so an exception that is an instance of a strict
subclass of `MemoryError`, `FatalAlgorithmError` or `MeasurementError`
(modelled by `ExcType.childOf`) is neither treated as fatal nor as a
measurement error: it falls into the warn-and-continue branch, the plugin
`fail` method is not invoked, and the run is not aborted (the remaining
invocations proceed unchanged). -/
theorem ccExit_subclass_policy :
    (∀ parent : ExcType,
      ccExit (some (ExcType.childOf parent)) = ExitAction.warn)
    ∧ ∀ (p : CCPlugin) (t : PlugTarget) (rest : List (CCPlugin × PlugTarget))
        (parent : ExcType),
        p.raises t = some (ExcType.childOf parent) →
        runPlugins ((p, t) :: rest)
            = (evOf (p, t) :: (runPlugins rest).1, (runPlugins rest).2)
          ∧ invAction (p, t) = ExitAction.warn := by
  constructor
  · intro parent
    simp [ccExit, FATAL_EXCEPTIONS]
  · intro p t rest parent hr
    have hw : invAction (p, t) = ExitAction.warn := by
      simp [invAction, ccExit, hr, FATAL_EXCEPTIONS]
    refine ⟨?_, hw⟩
    rw [runPlugins, if_neg (by rw [hw]; simp)]

/-- Witness for C10: a concrete plugin raising a strict subclass of
`MeasurementError` is handled by the warning branch and the following
plugin still runs. -/
theorem ccExit_subclass_policy_witness :
    (plugRaises "sub" (ExcType.childOf ExcType.measurementError)).raises PlugTarget.catalog
        = some (ExcType.childOf ExcType.measurementError)
    ∧ (runPlugins [(plugRaises "sub" (ExcType.childOf ExcType.measurementError),
          PlugTarget.catalog), (plugOk "after", PlugTarget.catalog)]
        = (evOf (plugRaises "sub" (ExcType.childOf ExcType.measurementError),
              PlugTarget.catalog)
            :: (runPlugins [(plugOk "after", PlugTarget.catalog)]).1,
          (runPlugins [(plugOk "after", PlugTarget.catalog)]).2)
      ∧ invAction (plugRaises "sub" (ExcType.childOf ExcType.measurementError),
          PlugTarget.catalog) = ExitAction.warn) :=
  ⟨rfl, ccExit_subclass_policy.2 (plugRaises "sub" (ExcType.childOf ExcType.measurementError))
    PlugTarget.catalog [(plugOk "after", PlugTarget.catalog)] ExcType.measurementError rfl⟩

/-! ### Helper lemmas: counting invocations -/

theorem countP_flatMap (p : β → Bool) (f : α → List β) (l : List α) :
    List.countP p (l.flatMap f) = (l.map (fun a => List.countP p (f a))).sum := by
  induction l with
  | nil => simp
  | cons a as ih => simp [List.flatMap_cons, List.countP_append, ih]

theorem sum_map_range_ite (n i : Nat) (c : Nat) :
    ((List.range n).map (fun j => if j = i then c else 0)).sum
      = if i < n then c else 0 := by
  induction n with
  | zero => simp
  | succ m ih =>
    rw [List.range_succ, List.map_append, List.sum_append, ih]
    by_cases him : i < m
    · simp [him, Nat.lt_succ_of_lt him, Nat.ne_of_gt him]
    · by_cases hieq : m = i
      · subst hieq
        simp [Nat.lt_irrefl, Nat.lt_succ_self]
      · have : ¬ i < m + 1 := by
          intro hcon
          rcases Nat.lt_succ_iff_lt_or_eq.1 hcon with h1 | h1
          · exact him h1
          · exact hieq h1.symm
        simp [him, hieq, this]

theorem countP_name_eq_one (nm : String) (l : List CCPlugin)
    (hnd : (l.map CCPlugin.name).Nodup) (hmem : nm ∈ l.map CCPlugin.name) :
    l.countP (fun q => q.name == nm) = 1 := by
  have h1 : List.count nm (l.map CCPlugin.name) = 1 :=
    List.count_eq_one_of_mem hnd hmem
  rw [List.count] at h1
  rw [List.countP_map] at h1
  exact h1

theorem countP_bucketInvs_multi (b : CCBucket) (n : Nat) (nm : String) :
    (bucketInvs b n).countP (fun pt => pt.1.name == nm && pt.2 == PlugTarget.catalog)
      = b.multi.countP (fun q => q.name == nm) := by
  rw [bucketInvs, List.countP_append]
  have h1 : (bucketMultiInvs b).countP
      (fun pt => pt.1.name == nm && pt.2 == PlugTarget.catalog)
        = b.multi.countP (fun q => q.name == nm) := by
    rw [bucketMultiInvs, List.countP_map]
    congr 1
    funext q
    simp
  have h2 : (bucketSingleInvs b n).countP
      (fun pt => pt.1.name == nm && pt.2 == PlugTarget.catalog) = 0 := by
    rw [List.countP_eq_zero]
    intro a ha
    rcases List.mem_flatMap.1 ha with ⟨i, _, hai⟩
    rcases List.mem_map.1 hai with ⟨q, _, hq⟩
    subst hq
    simp
  rw [h1, h2, Nat.add_zero]

theorem countP_bucketInvs_single (b : CCBucket) (n : Nat) (nm : String) (i : Nat)
    (hi : i < n) :
    (bucketInvs b n).countP (fun pt => pt.1.name == nm && pt.2 == PlugTarget.record i)
      = b.single.countP (fun q => q.name == nm) := by
  rw [bucketInvs, List.countP_append]
  have h1 : (bucketMultiInvs b).countP
      (fun pt => pt.1.name == nm && pt.2 == PlugTarget.record i) = 0 := by
    rw [List.countP_eq_zero]
    intro a ha
    rcases List.mem_map.1 ha with ⟨q, _, hq⟩
    subst hq
    simp
  have hmap : ∀ j : Nat, List.countP
        (fun pt : CCPlugin × PlugTarget => pt.1.name == nm && pt.2 == PlugTarget.record i)
        (b.single.map (fun p => (p, PlugTarget.record j)))
      = if j = i then b.single.countP (fun q => q.name == nm) else 0 := by
    intro j
    rw [List.countP_map]
    by_cases hji : j = i
    · subst hji
      rw [if_pos rfl]
      congr 1
      funext q
      simp
    · rw [if_neg hji]
      rw [List.countP_eq_zero]
      intro q _
      simp [hji]
  have h2 : (bucketSingleInvs b n).countP
      (fun pt => pt.1.name == nm && pt.2 == PlugTarget.record i)
        = b.single.countP (fun q => q.name == nm) := by
    rw [bucketSingleInvs, countP_flatMap]
    have hcongr : (List.range n).map (fun j => List.countP
          (fun pt : CCPlugin × PlugTarget =>
            pt.1.name == nm && pt.2 == PlugTarget.record i)
          (b.single.map (fun p => (p, PlugTarget.record j))))
        = (List.range n).map (fun j =>
            if j = i then b.single.countP (fun q => q.name == nm) else 0) :=
      List.map_congr_left (fun j _ => hmap j)
    rw [hcongr, sum_map_range_ite, if_pos hi]
  rw [h1, h2, Nat.zero_add]

/-! ### Claim C2 -/

/-- C2: in every run of `callCompute` in which no invocation raises a
fatal exception (otherwise the run aborts, see C1), the buckets of the
execution dictionary are processed in ascending execution-order; the
performed invocations are exactly the schedule, in which each bucket
contributes first one invocation of every catalog-mode (`multi`) plugin
with the full catalog and then, record by record, one invocation of every
record-mode (`single`) plugin; and (for buckets whose plugin names are
distinct) each catalog-mode plugin of a bucket is invoked exactly once
with the catalog, and each record-mode plugin of a bucket exactly once per
record. -/
theorem callCompute_invocation_order (execDict : List (ℚ × CCBucket)) (n : Nat)
    (hnf : ∀ pt ∈ ccSchedule execDict n, invAction pt ≠ ExitAction.reraise) :
    (callCompute execDict n).1 = (ccSchedule execDict n).map evOf
    ∧ (callCompute execDict n).2 = none
    ∧ (sortedBuckets execDict).Pairwise (fun a b => a.1 ≤ b.1)
    ∧ ccSchedule execDict n
        = (sortedBuckets execDict).flatMap
            (fun kb => kb.2.multi.map (fun p => (p, PlugTarget.catalog))
              ++ (List.range n).flatMap
                  (fun i => kb.2.single.map (fun p => (p, PlugTarget.record i))))
    ∧ (∀ kb ∈ sortedBuckets execDict, (kb.2.multi.map CCPlugin.name).Nodup →
        ∀ p ∈ kb.2.multi,
          (bucketInvs kb.2 n).countP
            (fun pt => pt.1.name == p.name && pt.2 == PlugTarget.catalog) = 1)
    ∧ (∀ kb ∈ sortedBuckets execDict, (kb.2.single.map CCPlugin.name).Nodup →
        ∀ p ∈ kb.2.single, ∀ i < n,
          (bucketInvs kb.2 n).countP
            (fun pt => pt.1.name == p.name && pt.2 == PlugTarget.record i) = 1) := by
  have hrun : callCompute execDict n = runPlugins (ccSchedule execDict n) := by
    rw [callCompute, ccSchedule, runBuckets_eq_runPlugins]
  have hnofatal := runPlugins_noFatal (ccSchedule execDict n) hnf
  refine ⟨?_, ?_, ?_, ?_, ?_, ?_⟩
  · rw [hrun, hnofatal]
  · rw [hrun, hnofatal]
  · have hp := pairwise_stableSort bucketKeyLE
      (fun a b c hab hbc => by
        rw [bucketKeyLE, decide_eq_true_eq] at hab hbc ⊢
        exact le_trans hab hbc)
      (fun a b => by
        rw [Bool.or_eq_true, bucketKeyLE, bucketKeyLE, decide_eq_true_eq, decide_eq_true_eq]
        exact le_total a.1 b.1)
      execDict
    exact hp.imp (fun hab => by rwa [bucketKeyLE, decide_eq_true_eq] at hab)
  · rfl
  · intro kb _ hnd p hp
    rw [countP_bucketInvs_multi]
    exact countP_name_eq_one p.name kb.2.multi hnd (List.mem_map_of_mem CCPlugin.name hp)
  · intro kb _ hnd p hp i hi
    rw [countP_bucketInvs_single kb.2 n p.name i hi]
    exact countP_name_eq_one p.name kb.2.single hnd (List.mem_map_of_mem CCPlugin.name hp)

/-- Witness for C2: on a concrete two-bucket execution dictionary with no
fatal plugin and a two-record catalog, the hypothesis holds and the run
performs exactly the schedule. -/
theorem callCompute_invocation_order_witness :
    (∀ pt ∈ ccSchedule wDict 2, invAction pt ≠ ExitAction.reraise)
    ∧ (callCompute wDict 2).1 = (ccSchedule wDict 2).map evOf
    ∧ (callCompute wDict 2).2 = none :=
  ⟨by decide, (callCompute_invocation_order wDict 2 (by decide)).1,
    (callCompute_invocation_order wDict 2 (by decide)).2.1⟩

/-! ### Claim C3 -/

theorem specLE_trans : ∀ a b c : PluginSpec,
    specLE a b = true → specLE b c = true → specLE a c = true := by
  intro a b c hab hbc
  rw [specLE, decide_eq_true_eq] at hab hbc ⊢
  rcases hab with h1 | h1 <;> rcases hbc with h2 | h2
  · exact Or.inl (lt_trans h1 h2)
  · exact Or.inl (lt_of_lt_of_le h1 (le_of_eq h2.1))
  · exact Or.inl (lt_of_le_of_lt (le_of_eq h1.1) h2)
  · exact Or.inr ⟨h1.1.trans h2.1, le_trans h1.2 h2.2⟩

theorem specLE_total : ∀ a b : PluginSpec, (specLE a b || specLE b a) = true := by
  intro a b
  rw [Bool.or_eq_true, specLE, specLE, decide_eq_true_eq, decide_eq_true_eq]
  rcases lt_trichotomy a.executionOrder b.executionOrder with h | h | h
  · exact Or.inl (Or.inl h)
  · rcases le_total a.name b.name with hn | hn
    · exact Or.inl (Or.inr ⟨h, hn⟩)
    · exact Or.inr (Or.inr ⟨h.symm, hn⟩)
  · exact Or.inr (Or.inl h)

/-- C3: if any configured plugin class has an execution order below
`DEFAULT_CATALOGCALCULATION`, scheduler construction
(`initializePlugins`, embedded as `initPlugins`) raises the configuration
`ValueError`, and no plugin instance has been constructed when the error
is raised (the error payload carries the names of the instances
constructed before the raise, and it is empty). This relies on the sorted
processing order: the offending plugin sorts before every valid one, so
the check fires on the first iteration. -/
theorem initPlugins_low_order_raises (specs : List PluginSpec)
    (h : ∃ s ∈ specs, s.executionOrder < DEFAULT_CATALOGCALCULATION) :
    ∃ msg, initPlugins specs = Except.error ([], msg) := by
  obtain ⟨s, hs, hlt⟩ := h
  have hs2 : s ∈ stableSort specLE specs := (mem_stableSort specLE s specs).2 hs
  have hp := pairwise_stableSort specLE specLE_trans specLE_total specs
  cases hsort : stableSort specLE specs with
  | nil =>
    rw [hsort] at hs2
    exact absurd hs2 (List.not_mem_nil s)
  | cons hd tl =>
    rw [hsort] at hs2 hp
    have hdlt : hd.executionOrder < DEFAULT_CATALOGCALCULATION := by
      rcases List.mem_cons.1 hs2 with he | htl
      · rw [← he]; exact hlt
      · have hle := (List.pairwise_cons.1 hp).1 s htl
        rw [specLE, decide_eq_true_eq] at hle
        rcases hle with h1 | h1
        · exact lt_trans h1 hlt
        · rw [h1.1]; exact hlt
    refine ⟨hd.name ++
      " has an execution order less than the minimum for an catalogCalculation plugin", ?_⟩
    rw [initPlugins, sortSpecs, hsort]
    simp only [initPluginsGo]
    rw [if_neg (not_le.2 hdlt)]

/-- Witness for C3: a concrete configuration with an execution order of 1
(below the minimum 4) makes construction fail with nothing constructed. -/
theorem initPlugins_low_order_raises_witness :
    (∃ s ∈ w3Specs, s.executionOrder < DEFAULT_CATALOGCALCULATION)
    ∧ ∃ msg, initPlugins w3Specs = Except.error ([], msg) :=
  ⟨by decide, initPlugins_low_order_raises w3Specs (by decide)⟩

/-! ### Helper lemmas: the per-source correction -/

theorem correctSource_domain_error (doFlag useNaive : Bool)
    (cErr : ℚ → ℚ → ℚ → ℚ → ℚ) (doCol : Bool) (vm em : ApCorrModel)
    (s : SourceRecord) (hvm : vm s.centroid = none) :
    correctSource doFlag useNaive cErr doCol vm em s
      = ({ s with
            apCorrFlag := true,
            fluxFlag := if doFlag then true else s.fluxFlag }, 1, 0) := by
  cases doFlag <;> simp [correctSource, hvm]

theorem correctSource_invalid (doFlag useNaive : Bool)
    (cErr : ℚ → ℚ → ℚ → ℚ → ℚ) (doCol : Bool) (vm em : ApCorrModel)
    (s : SourceRecord) (a b : ℚ)
    (hvm : vm s.centroid = some a)
    (hb : (if useNaive then some 0 else em s.centroid) = some b)
    (hbad : a ≤ 0 ∨ b < 0) :
    correctSource doFlag useNaive cErr doCol vm em s
      = ({ s with
            apCorrFlag := true,
            fluxFlag := if doFlag then true else s.fluxFlag,
            apCorrCol := if doCol then a else s.apCorrCol,
            apCorrErrCol := if doCol then b else s.apCorrErrCol }, a, b) := by
  cases doFlag <;> cases doCol <;>
    simp [correctSource, hvm, hb, if_pos hbad]

theorem correctSource_success (doFlag : Bool)
    (cErr : ℚ → ℚ → ℚ → ℚ → ℚ) (doCol : Bool) (vm em : ApCorrModel)
    (s : SourceRecord) (a : ℚ)
    (hvm : vm s.centroid = some a) (ha : 0 < a) :
    correctSource doFlag true cErr doCol vm em s
      = ({ s with
            instFlux := s.instFlux * a,
            instFluxErr := s.instFluxErr * a,
            apCorrCol := if doCol then a else s.apCorrCol,
            apCorrErrCol := if doCol then 0 else s.apCorrErrCol,
            apCorrFlag := false,
            fluxFlag := s.fluxFlag }, a, 0) := by
  have hcond : ¬ (a ≤ 0 ∨ (0:ℚ) < 0) := by
    push_neg
    exact ⟨ha, le_refl 0⟩
  cases doFlag <;> cases doCol <;>
    simp [correctSource, hvm, if_neg hcond] <;> exact ha

theorem runField_models_present (doFlag useNaive : Bool)
    (cErr : ℚ → ℚ → ℚ → ℚ → ℚ) (info : ApCorrFieldInfo)
    (apMap : String → Option ApCorrModel) (vm em : ApCorrModel)
    (catalog : List SourceRecord)
    (hvm : apMap info.modelName = some vm) (hem : apMap info.modelSigmaName = some em) :
    runField doFlag useNaive cErr info apMap catalog
      = (catalog.map (fun s =>
          (correctSource doFlag useNaive cErr info.doApCorrColumn vm em s).1), []) := by
  simp [runField, hvm, hem]

/-! ### Claim C4 -/

/-- C4: in naive flux-error mode, for any source whose value-model
evaluation succeeds with a valid correction `a > 0` (in naive mode the
error value is 0, hence never negative), `run` (per-field embedding
`runField`) multiplies both the flux and the flux error of that source by
`a`, clears the aperture correction failure flag, and leaves the general
flux failure flag equal to its state before the run (it is saved and
restored when `doFlagApCorrFailures` is set, and untouched otherwise). -/
theorem applyApCorr_naive_valid (doFlag : Bool) (cErr : ℚ → ℚ → ℚ → ℚ → ℚ)
    (info : ApCorrFieldInfo) (apMap : String → Option ApCorrModel) (vm em : ApCorrModel)
    (catalog : List SourceRecord) (i : Nat) (a : ℚ)
    (hvm : apMap info.modelName = some vm) (hem : apMap info.modelSigmaName = some em)
    (hi : i < catalog.length)
    (ha : vm (catalog.get ⟨i, hi⟩).centroid = some a) (hpos : 0 < a) :
    (runField doFlag UseNaiveFluxErr cErr info apMap catalog).1.length = catalog.length
    ∧ ∃ r, (runField doFlag UseNaiveFluxErr cErr info apMap catalog).1[i]? = some r
        ∧ r.instFlux = (catalog.get ⟨i, hi⟩).instFlux * a
        ∧ r.instFluxErr = (catalog.get ⟨i, hi⟩).instFluxErr * a
        ∧ r.apCorrFlag = false
        ∧ r.fluxFlag = (catalog.get ⟨i, hi⟩).fluxFlag := by
  have hrf : (runField doFlag UseNaiveFluxErr cErr info apMap catalog).1
      = catalog.map (fun s =>
          (correctSource doFlag UseNaiveFluxErr cErr info.doApCorrColumn vm em s).1) :=
    congrArg Prod.fst
      (runField_models_present doFlag UseNaiveFluxErr cErr info apMap vm em catalog hvm hem)
  have hcs := correctSource_success doFlag cErr info.doApCorrColumn vm em
    (catalog.get ⟨i, hi⟩) a ha hpos
  refine ⟨by rw [hrf, List.length_map],
    (correctSource doFlag true cErr info.doApCorrColumn vm em (catalog.get ⟨i, hi⟩)).1,
    ?_, ?_, ?_, ?_, ?_⟩
  · rw [hrf, List.getElem?_map, List.getElem?_eq_getElem hi]
    simp [UseNaiveFluxErr, List.get_eq_getElem]
  · rw [hcs]
  · rw [hcs]
  · rw [hcs]
  · rw [hcs]

/-- Witness for C4: flux 100 and flux error 5 with an aperture correction
of 1.1 become flux 110 and flux error 5.5, the aperture correction flag is
cleared, and the previously set general flux failure flag is preserved. -/
theorem applyApCorr_naive_valid_witness :
    (runField true UseNaiveFluxErr cErr0 wInfo wMap11 [wSource]).1.length = 1
    ∧ ∃ r, (runField true UseNaiveFluxErr cErr0 wInfo wMap11 [wSource]).1[0]? = some r
        ∧ r.instFlux = 110
        ∧ r.instFluxErr = 11/2
        ∧ r.apCorrFlag = false
        ∧ r.fluxFlag = true := by
  have h := applyApCorr_naive_valid true cErr0 wInfo wMap11 w4Vm w4Vm [wSource] 0 (11/10)
    rfl rfl (by norm_num) rfl (by norm_num)
  obtain ⟨hlen, r, hr, h1, h2, h3, h4⟩ := h
  refine ⟨by simpa using hlen, r, hr, ?_, ?_, h3, ?_⟩
  · rw [h1]; norm_num [wSource]
  · rw [h2]; norm_num [wSource]
  · rw [h4]; rfl

/-! ### Claim C5 -/

/-- C5: for any source whose evaluated correction is invalid (the value
`a` is non-positive, or the evaluated error `b` is negative, the latter
being possible only with the naive mode disabled), `run` (per-field
embedding `runField`) leaves the flux and flux-error fields of that source
unmodified and leaves the aperture correction failure flag true, while the
apCorr/apCorrErr output columns are still written with the evaluated
values when this info owns non-aliased columns. -/
theorem applyApCorr_invalid_correction (doFlag useNaive : Bool)
    (cErr : ℚ → ℚ → ℚ → ℚ → ℚ) (info : ApCorrFieldInfo)
    (apMap : String → Option ApCorrModel) (vm em : ApCorrModel)
    (catalog : List SourceRecord) (i : Nat) (a b : ℚ)
    (hvm : apMap info.modelName = some vm) (hem : apMap info.modelSigmaName = some em)
    (hi : i < catalog.length)
    (ha : vm (catalog.get ⟨i, hi⟩).centroid = some a)
    (hb : (if useNaive then some 0 else em (catalog.get ⟨i, hi⟩).centroid) = some b)
    (hbad : a ≤ 0 ∨ b < 0) :
    (runField doFlag useNaive cErr info apMap catalog).1.length = catalog.length
    ∧ ∃ r, (runField doFlag useNaive cErr info apMap catalog).1[i]? = some r
        ∧ r.instFlux = (catalog.get ⟨i, hi⟩).instFlux
        ∧ r.instFluxErr = (catalog.get ⟨i, hi⟩).instFluxErr
        ∧ r.apCorrFlag = true
        ∧ r.apCorrCol = (if info.doApCorrColumn then a else (catalog.get ⟨i, hi⟩).apCorrCol)
        ∧ r.apCorrErrCol
            = (if info.doApCorrColumn then b else (catalog.get ⟨i, hi⟩).apCorrErrCol) := by
  have hrf : (runField doFlag useNaive cErr info apMap catalog).1
      = catalog.map (fun s =>
          (correctSource doFlag useNaive cErr info.doApCorrColumn vm em s).1) :=
    congrArg Prod.fst
      (runField_models_present doFlag useNaive cErr info apMap vm em catalog hvm hem)
  have hcs := correctSource_invalid doFlag useNaive cErr info.doApCorrColumn vm em
    (catalog.get ⟨i, hi⟩) a b ha hb hbad
  refine ⟨by rw [hrf, List.length_map],
    (correctSource doFlag useNaive cErr info.doApCorrColumn vm em (catalog.get ⟨i, hi⟩)).1,
    ?_, ?_, ?_, ?_, ?_, ?_⟩
  · rw [hrf, List.getElem?_map, List.getElem?_eq_getElem hi]
    simp [List.get_eq_getElem]
  · rw [hcs]
  · rw [hcs]
  · rw [hcs]
  · rw [hcs]
  · rw [hcs]

/-- Witness for C5: an evaluated correction of -1 leaves flux 100 and flux
error 5 unchanged and the failure flag set, while the owned output column
receives the value -1. -/
theorem applyApCorr_invalid_correction_witness :
    (runField true true cErr0 wInfo wMapNeg [wSource]).1.length = 1
    ∧ ∃ r, (runField true true cErr0 wInfo wMapNeg [wSource]).1[0]? = some r
        ∧ r.instFlux = 100
        ∧ r.instFluxErr = 5
        ∧ r.apCorrFlag = true
        ∧ r.apCorrCol = (-1 : ℚ)
        ∧ r.apCorrErrCol = 0 := by
  have h := applyApCorr_invalid_correction true true cErr0 wInfo wMapNeg wNegVm wNegVm
    [wSource] 0 (-1) 0 rfl rfl (by norm_num) rfl rfl (by norm_num)
  obtain ⟨hlen, r, hr, h1, h2, h3, h4, h5⟩ := h
  refine ⟨by simpa using hlen, r, hr, ?_, ?_, h3, ?_, ?_⟩
  · rw [h1]; rfl
  · rw [h2]; rfl
  · rw [h4]; rfl
  · rw [h5]; rfl

/-! ### Claim C6 -/

/-- C6: for any source where the value-model evaluation at the centroid
raises a domain error, `run` (per-field embedding `runField`) leaves the
flux, flux-error and output columns of that source unchanged, leaves the
aperture correction failure flag true, the local correction values stay at
their defaults `apCorr = 1.0` and `apCorrErr = 0.0`, and processing moves
on to the next source. -/
theorem applyApCorr_domain_error_run (doFlag useNaive : Bool)
    (cErr : ℚ → ℚ → ℚ → ℚ → ℚ) (info : ApCorrFieldInfo)
    (apMap : String → Option ApCorrModel) (vm em : ApCorrModel)
    (catalog : List SourceRecord) (i : Nat)
    (hvm : apMap info.modelName = some vm) (hem : apMap info.modelSigmaName = some em)
    (hi : i < catalog.length)
    (ha : vm (catalog.get ⟨i, hi⟩).centroid = none) :
    (runField doFlag useNaive cErr info apMap catalog).1.length = catalog.length
    ∧ (correctSource doFlag useNaive cErr info.doApCorrColumn vm em
        (catalog.get ⟨i, hi⟩)).2 = (1, 0)
    ∧ ∃ r, (runField doFlag useNaive cErr info apMap catalog).1[i]? = some r
        ∧ r.instFlux = (catalog.get ⟨i, hi⟩).instFlux
        ∧ r.instFluxErr = (catalog.get ⟨i, hi⟩).instFluxErr
        ∧ r.apCorrCol = (catalog.get ⟨i, hi⟩).apCorrCol
        ∧ r.apCorrErrCol = (catalog.get ⟨i, hi⟩).apCorrErrCol
        ∧ r.apCorrFlag = true := by
  have hrf : (runField doFlag useNaive cErr info apMap catalog).1
      = catalog.map (fun s =>
          (correctSource doFlag useNaive cErr info.doApCorrColumn vm em s).1) :=
    congrArg Prod.fst
      (runField_models_present doFlag useNaive cErr info apMap vm em catalog hvm hem)
  have hcs := correctSource_domain_error doFlag useNaive cErr info.doApCorrColumn vm em
    (catalog.get ⟨i, hi⟩) ha
  refine ⟨by rw [hrf, List.length_map], by rw [hcs],
    (correctSource doFlag useNaive cErr info.doApCorrColumn vm em (catalog.get ⟨i, hi⟩)).1,
    ?_, ?_, ?_, ?_, ?_, ?_⟩
  · rw [hrf, List.getElem?_map, List.getElem?_eq_getElem hi]
    simp [List.get_eq_getElem]
  · rw [hcs]
  · rw [hcs]
  · rw [hcs]
  · rw [hcs]
  · rw [hcs]

/-- Witness for C6: a model raising a domain error leaves flux 100, flux
error 5 and the output columns unchanged, the flag stays true, and the
local correction values are 1 and 0. -/
theorem applyApCorr_domain_error_run_witness :
    (runField true true cErr0 wInfo wMapDomErr [wSource]).1.length = 1
    ∧ (correctSource true true cErr0 wInfo.doApCorrColumn wDomVm wDomVm wSource).2 = (1, 0)
    ∧ ∃ r, (runField true true cErr0 wInfo wMapDomErr [wSource]).1[0]? = some r
        ∧ r.instFlux = 100
        ∧ r.instFluxErr = 5
        ∧ r.apCorrCol = 0
        ∧ r.apCorrErrCol = 0
        ∧ r.apCorrFlag = true := by
  have h := applyApCorr_domain_error_run true true cErr0 wInfo wMapDomErr wDomVm wDomVm
    [wSource] 0 rfl rfl (by norm_num) rfl
  obtain ⟨hlen, hloc, r, hr, h1, h2, h3, h4, h5⟩ := h
  refine ⟨by simpa using hlen, hloc, r, hr, ?_, ?_, ?_, ?_, h5⟩
  · rw [h1]; rfl
  · rw [h2]; rfl
  · rw [h3]; rfl
  · rw [h4]; rfl

/-! ### Claim C7 -/

/-- C7: for any field whose value model or error model is absent from the
supplied aperture correction map, `run` (per-field embedding `runField`)
warns exactly once, sets the aperture correction failure flag of every
source of the catalog, and modifies no flux or flux-error field of any
source. -/
theorem applyApCorr_missing_model (doFlag useNaive : Bool)
    (cErr : ℚ → ℚ → ℚ → ℚ → ℚ) (info : ApCorrFieldInfo)
    (apMap : String → Option ApCorrModel) (catalog : List SourceRecord)
    (h : (apMap info.modelName).isNone ∨ (apMap info.modelSigmaName).isNone) :
    (runField doFlag useNaive cErr info apMap catalog).1.length = catalog.length
    ∧ (∀ i (hi : i < catalog.length),
        ∃ r, (runField doFlag useNaive cErr info apMap catalog).1[i]? = some r
          ∧ r.apCorrFlag = true
          ∧ r.instFlux = (catalog.get ⟨i, hi⟩).instFlux
          ∧ r.instFluxErr = (catalog.get ⟨i, hi⟩).instFluxErr)
    ∧ (runField doFlag useNaive cErr info apMap catalog).2.length = 1 := by
  have hrf : runField doFlag useNaive cErr info apMap catalog
      = (catalog.map (fun s => { s with apCorrFlag := true }),
         ["Cannot aperture correct " ++ info.name ++ " because could not find "
            ++ String.intercalate " or " (missingModelNames info apMap) ++ " in apCorrMap"]) := by
    rcases hm : apMap info.modelName with _ | vmm
    · simp [runField, hm]
    · rcases hs : apMap info.modelSigmaName with _ | emm
      · simp [runField, hm, hs]
      · rw [hm, hs] at h
        simp at h
  refine ⟨?_, ?_, ?_⟩
  · rw [congrArg Prod.fst hrf]
    exact List.length_map catalog _
  · intro i hi
    refine ⟨{ catalog.get ⟨i, hi⟩ with apCorrFlag := true }, ?_, rfl, rfl, rfl⟩
    rw [congrArg Prod.fst hrf, List.getElem?_map, List.getElem?_eq_getElem hi]
    simp [List.get_eq_getElem]
  · rw [congrArg Prod.snd hrf]
    rfl

/-- Witness for C7: with an empty correction map, both sources of a
two-record catalog end with the failure flag set and unchanged fluxes, and
exactly one warning is logged. -/
theorem applyApCorr_missing_model_witness :
    ((wMapEmpty wInfo.modelName).isNone ∨ (wMapEmpty wInfo.modelSigmaName).isNone)
    ∧ (runField true true cErr0 wInfo wMapEmpty [wSource, w9Source]).1.length = 2
    ∧ (∃ r, (runField true true cErr0 wInfo wMapEmpty [wSource, w9Source]).1[0]? = some r
        ∧ r.apCorrFlag = true ∧ r.instFlux = 100)
    ∧ (runField true true cErr0 wInfo wMapEmpty [wSource, w9Source]).2.length = 1 := by
  have h := applyApCorr_missing_model true true cErr0 wInfo wMapEmpty [wSource, w9Source]
    (Or.inl rfl)
  obtain ⟨h1, h2, h3⟩ := h
  refine ⟨Or.inl rfl, by simpa using h1, ?_, h3⟩
  obtain ⟨r, hr, hf, hx, _⟩ := h2 0 (by norm_num)
  exact ⟨r, hr, hf, by rw [hx]; rfl⟩

/-! ### Claim C9 -/

/-- C9 (amended): running the aperture corrector twice with the same
correction map over a source with a valid correction `a` is not
idempotent: the flux after two runs is the original flux multiplied by `a`
twice, which differs from the single-run flux whenever `a ≠ 1` and the
original flux is nonzero (for a source with flux 0 the two results
coincide even when `a ≠ 1`, which is why the nonzero-flux qualification is
needed). -/
theorem applyApCorr_twice_flux (doFlag : Bool) (cErr : ℚ → ℚ → ℚ → ℚ → ℚ)
    (info : ApCorrFieldInfo) (apMap : String → Option ApCorrModel) (vm em : ApCorrModel)
    (catalog : List SourceRecord) (i : Nat) (a : ℚ)
    (hvm : apMap info.modelName = some vm) (hem : apMap info.modelSigmaName = some em)
    (hi : i < catalog.length)
    (ha : vm (catalog.get ⟨i, hi⟩).centroid = some a) (hpos : 0 < a) :
    ∃ r1 r2,
      (runField doFlag UseNaiveFluxErr cErr info apMap catalog).1[i]? = some r1
      ∧ (runField doFlag UseNaiveFluxErr cErr info apMap
          ((runField doFlag UseNaiveFluxErr cErr info apMap catalog).1)).1[i]? = some r2
      ∧ r1.instFlux = (catalog.get ⟨i, hi⟩).instFlux * a
      ∧ r2.instFlux = (catalog.get ⟨i, hi⟩).instFlux * a * a
      ∧ (a ≠ 1 → (catalog.get ⟨i, hi⟩).instFlux ≠ 0 → r2.instFlux ≠ r1.instFlux) := by
  have hrf1 : (runField doFlag UseNaiveFluxErr cErr info apMap catalog).1
      = catalog.map (fun s =>
          (correctSource doFlag UseNaiveFluxErr cErr info.doApCorrColumn vm em s).1) :=
    congrArg Prod.fst
      (runField_models_present doFlag UseNaiveFluxErr cErr info apMap vm em catalog hvm hem)
  have hrf2 : (runField doFlag UseNaiveFluxErr cErr info apMap
        ((runField doFlag UseNaiveFluxErr cErr info apMap catalog).1)).1
      = ((runField doFlag UseNaiveFluxErr cErr info apMap catalog).1).map (fun s =>
          (correctSource doFlag UseNaiveFluxErr cErr info.doApCorrColumn vm em s).1) :=
    congrArg Prod.fst
      (runField_models_present doFlag UseNaiveFluxErr cErr info apMap vm em
        ((runField doFlag UseNaiveFluxErr cErr info apMap catalog).1) hvm hem)
  have hcs1 := correctSource_success doFlag cErr info.doApCorrColumn vm em
    (catalog.get ⟨i, hi⟩) a ha hpos
  have h1 : (runField doFlag UseNaiveFluxErr cErr info apMap catalog).1[i]?
      = some ((correctSource doFlag true cErr info.doApCorrColumn vm em
          (catalog.get ⟨i, hi⟩)).1) := by
    rw [hrf1, List.getElem?_map, List.getElem?_eq_getElem hi]
    simp [UseNaiveFluxErr, List.get_eq_getElem]
  have hcent : vm ((correctSource doFlag true cErr info.doApCorrColumn vm em
      (catalog.get ⟨i, hi⟩)).1).centroid = some a := by
    rw [hcs1]
    exact ha
  have hcs2 := correctSource_success doFlag cErr info.doApCorrColumn vm em
    ((correctSource doFlag true cErr info.doApCorrColumn vm em (catalog.get ⟨i, hi⟩)).1)
    a hcent hpos
  have h2 : (runField doFlag UseNaiveFluxErr cErr info apMap
        ((runField doFlag UseNaiveFluxErr cErr info apMap catalog).1)).1[i]?
      = some ((correctSource doFlag true cErr info.doApCorrColumn vm em
          ((correctSource doFlag true cErr info.doApCorrColumn vm em
            (catalog.get ⟨i, hi⟩)).1)).1) := by
    rw [hrf2, List.getElem?_map, h1]
    simp [UseNaiveFluxErr]
  have hflux1 : ((correctSource doFlag true cErr info.doApCorrColumn vm em
      (catalog.get ⟨i, hi⟩)).1).instFlux = (catalog.get ⟨i, hi⟩).instFlux * a := by
    rw [hcs1]
  have hflux2 : ((correctSource doFlag true cErr info.doApCorrColumn vm em
      ((correctSource doFlag true cErr info.doApCorrColumn vm em
        (catalog.get ⟨i, hi⟩)).1)).1).instFlux
      = (catalog.get ⟨i, hi⟩).instFlux * a * a := by
    rw [hcs2, hflux1]
  refine ⟨_, _, h1, h2, hflux1, hflux2, ?_⟩
  intro hne hnz
  rw [hflux1, hflux2]
  intro heq
  have h0 : (catalog.get ⟨i, hi⟩).instFlux * a ≠ 0 := mul_ne_zero hnz (ne_of_gt hpos)
  apply hne
  apply mul_left_cancel₀ h0
  rw [mul_one]
  exact heq

/-- Counterexample for C9 as frozen: for a source whose flux is 0, the
flux after two runs equals the flux after one run even though the
aperture correction 2 differs from 1, so the two-run result does not
differ from the single-run result "whenever apCorr is not 1". -/
theorem applyApCorr_twice_counterexample :
    w9Map wInfo.modelName = some w9Vm
    ∧ w9Vm w9Source.centroid = some (2 : ℚ)
    ∧ (2 : ℚ) ≠ 1
    ∧ ((runField true UseNaiveFluxErr cErr0 wInfo w9Map
          ((runField true UseNaiveFluxErr cErr0 wInfo w9Map [w9Source]).1)).1.map
            SourceRecord.instFlux)
        = ((runField true UseNaiveFluxErr cErr0 wInfo w9Map [w9Source]).1.map
            SourceRecord.instFlux) := by
  refine ⟨rfl, rfl, by norm_num, ?_⟩
  norm_num [runField, correctSource, w9Map, w9Vm, w9Source, wInfo, UseNaiveFluxErr, cErr0]

/-- Witness for the amended C9: flux 100 with correction 1.1 becomes 110
after one run and 121 after two runs, and the two differ. -/
theorem applyApCorr_twice_flux_witness :
    ∃ r1 r2,
      (runField true UseNaiveFluxErr cErr0 wInfo wMap11 [wSource]).1[0]? = some r1
      ∧ (runField true UseNaiveFluxErr cErr0 wInfo wMap11
          ((runField true UseNaiveFluxErr cErr0 wInfo wMap11 [wSource]).1)).1[0]? = some r2
      ∧ r1.instFlux = 110
      ∧ r2.instFlux = 121
      ∧ r2.instFlux ≠ r1.instFlux := by
  have h := applyApCorr_twice_flux true cErr0 wInfo wMap11 w4Vm w4Vm [wSource] 0 (11/10)
    rfl rfl (by norm_num) rfl (by norm_num)
  obtain ⟨r1, r2, h1, h2, hf1, hf2, hne⟩ := h
  refine ⟨r1, r2, h1, h2, ?_, ?_, ?_⟩
  · rw [hf1]; norm_num [wSource]
  · rw [hf2]; norm_num [wSource]
  · exact hne (by norm_num) (by norm_num [wSource])

/-! ### Helper lemmas: schema lookups -/

theorem findIdx_none_of_not_mem (l : List String) (n : String) (h : n ∉ l) :
    l.findIdx? (fun f => f == n) = none :=
  List.findIdx?_eq_none_iff.mpr
    (fun _ hx => beq_eq_false_iff_ne.mpr (fun he => h (he ▸ hx)))

theorem findIdx_append_fresh (l1 l2 : List String) (n : String) (h : n ∉ l1) :
    (l1 ++ l2).findIdx? (fun f => f == n)
      = (l2.findIdx? (fun f => f == n)).map (fun i => i + l1.length) := by
  rw [List.findIdx?_append, findIdx_none_of_not_mem l1 n h]
  rfl

theorem findKey_append_of_isSome (s : Schema) (l : List String) (n : String)
    (h : (s.findKey n).isSome) :
    (Schema.mk (s.fields ++ l) s.aliases).findKey n = s.findKey n := by
  obtain ⟨k, hk⟩ := Option.isSome_iff_exists.1 h
  rw [Schema.findKey] at hk
  rw [Schema.findKey, Schema.findKey]
  have hres : (Schema.mk (s.fields ++ l) s.aliases).resolve n = s.resolve n := rfl
  rw [hres, List.findIdx?_append, hk]
  rfl

/-! ### Claim C8 -/

/-- C8: when field `b` is configured as a proxy for the corrections of
field `a` and the apCorr column of `a` already exists in the schema (here
because the direct `ApCorrInfo` of `a` was built first), the `ApCorrInfo`
construction for `b` creates no new apCorr/apCorrErr columns: it only adds
the failure flag field, installs schema aliases from the correction field
names of `b` to those of `a`, and the resulting apCorr and apCorrErr keys
of `b` resolve to the same underlying storage as those of `a`, while the
failure flag key of `b` is distinct from that of `a`. -/
theorem apCorrInfo_proxy_alias (s0 : Schema) (a b : String)
    (hA1 : (s0.findKey (a ++ "_instFlux")).isSome)
    (hA2 : (s0.findKey (a ++ "_instFluxErr")).isSome)
    (hA3 : (s0.findKey (a ++ "_flag")).isSome)
    (hB1 : (s0.findKey (b ++ "_instFlux")).isSome)
    (hB2 : (s0.findKey (b ++ "_instFluxErr")).isSome)
    (hB3 : (s0.findKey (b ++ "_flag")).isSome)
    (hba : b ≠ a)
    (hnfA : (a ++ "_apCorr") ∉ s0.fields)
    (hnfA2 : (a ++ "_apCorrErr") ∉ s0.fields)
    (halA : s0.aliases.lookup (a ++ "_apCorr") = none)
    (hne1 : (b ++ "_apCorr") ≠ (b ++ "_apCorrErr"))
    (hne2 : (a ++ "_apCorr") ≠ (a ++ "_apCorrErr")) :
    ∃ iA s1 iB s2,
      ApCorrInfo.ofSchema s0 a none = some (iA, s1)
      ∧ ApCorrInfo.ofSchema s1 a (some b) = some (iB, s2)
      ∧ iA.doApCorrColumn = true
      ∧ iB.doApCorrColumn = false
      ∧ s2.fields = s1.fields ++ [b ++ "_flag_apCorr"]
      ∧ iB.apCorrKey = iA.apCorrKey
      ∧ iB.apCorrErrKey = iA.apCorrErrKey
      ∧ iB.apCorrFlagKey ≠ iA.apCorrFlagKey := by
  obtain ⟨k1, hk1⟩ := Option.isSome_iff_exists.1 hA1
  obtain ⟨k2, hk2⟩ := Option.isSome_iff_exists.1 hA2
  obtain ⟨k3, hk3⟩ := Option.isSome_iff_exists.1 hA3
  obtain ⟨m1, hm1⟩ := Option.isSome_iff_exists.1 hB1
  obtain ⟨m2, hm2⟩ := Option.isSome_iff_exists.1 hB2
  obtain ⟨m3, hm3⟩ := Option.isSome_iff_exists.1 hB3
  have hA : ApCorrInfo.ofSchema s0 a none
      = some (⟨a, a ++ "_instFlux", a ++ "_instFluxErr", a ++ "_instFlux",
          a ++ "_instFluxErr", k1, k2, k3, true,
          s0.fields.length, s0.fields.length + 1, s0.fields.length + 2⟩,
        Schema.mk
          (s0.fields ++ [a ++ "_apCorr", a ++ "_apCorrErr", a ++ "_flag_apCorr"])
          s0.aliases) := by
    simp [ApCorrInfo.ofSchema, hk1, hk2, hk3, Schema.addField]
  have hkb1 : (Schema.mk
      (s0.fields ++ [a ++ "_apCorr", a ++ "_apCorrErr", a ++ "_flag_apCorr"])
      s0.aliases).findKey (b ++ "_instFlux") = some m1 := by
    rw [findKey_append_of_isSome s0 _ _ hB1]
    exact hm1
  have hkb2 : (Schema.mk
      (s0.fields ++ [a ++ "_apCorr", a ++ "_apCorrErr", a ++ "_flag_apCorr"])
      s0.aliases).findKey (b ++ "_instFluxErr") = some m2 := by
    rw [findKey_append_of_isSome s0 _ _ hB2]
    exact hm2
  have hkb3 : (Schema.mk
      (s0.fields ++ [a ++ "_apCorr", a ++ "_apCorrErr", a ++ "_flag_apCorr"])
      s0.aliases).findKey (b ++ "_flag") = some m3 := by
    rw [findKey_append_of_isSome s0 _ _ hB3]
    exact hm3
  have haApc : (Schema.mk
      (s0.fields ++ [a ++ "_apCorr", a ++ "_apCorrErr", a ++ "_flag_apCorr"])
      s0.aliases).findKey (a ++ "_apCorr") = some s0.fields.length := by
    rw [Schema.findKey]
    have hres : (Schema.mk
        (s0.fields ++ [a ++ "_apCorr", a ++ "_apCorrErr", a ++ "_flag_apCorr"])
        s0.aliases).resolve (a ++ "_apCorr") = a ++ "_apCorr" := by
      simp [Schema.resolve, halA]
    rw [hres, findIdx_append_fresh _ _ _ hnfA]
    simp [List.findIdx?]
  have hfind_bApc : (Schema.mk
      (s0.fields ++ [a ++ "_apCorr", a ++ "_apCorrErr", a ++ "_flag_apCorr"])
      ((b ++ "_apCorrErr", a ++ "_apCorrErr") :: (b ++ "_apCorr", a ++ "_apCorr")
        :: s0.aliases)).findKey (b ++ "_apCorr") = some s0.fields.length := by
    rw [Schema.findKey]
    have hres : (Schema.mk
        (s0.fields ++ [a ++ "_apCorr", a ++ "_apCorrErr", a ++ "_flag_apCorr"])
        ((b ++ "_apCorrErr", a ++ "_apCorrErr") :: (b ++ "_apCorr", a ++ "_apCorr")
          :: s0.aliases)).resolve (b ++ "_apCorr") = a ++ "_apCorr" := by
      simp [Schema.resolve, List.lookup, beq_eq_false_iff_ne.mpr hne1]
    rw [hres, findIdx_append_fresh _ _ _ hnfA]
    simp [List.findIdx?]
  have hfind_bApcErr : (Schema.mk
      (s0.fields ++ [a ++ "_apCorr", a ++ "_apCorrErr", a ++ "_flag_apCorr"])
      ((b ++ "_apCorrErr", a ++ "_apCorrErr") :: (b ++ "_apCorr", a ++ "_apCorr")
        :: s0.aliases)).findKey (b ++ "_apCorrErr") = some (s0.fields.length + 1) := by
    rw [Schema.findKey]
    have hres : (Schema.mk
        (s0.fields ++ [a ++ "_apCorr", a ++ "_apCorrErr", a ++ "_flag_apCorr"])
        ((b ++ "_apCorrErr", a ++ "_apCorrErr") :: (b ++ "_apCorr", a ++ "_apCorr")
          :: s0.aliases)).resolve (b ++ "_apCorrErr") = a ++ "_apCorrErr" := by
      simp [Schema.resolve, List.lookup]
    rw [hres, findIdx_append_fresh _ _ _ hnfA2]
    simp [List.findIdx?, beq_eq_false_iff_ne.mpr hne2]
    omega
  have hcont : (Schema.mk
      (s0.fields ++ [a ++ "_apCorr", a ++ "_apCorrErr", a ++ "_flag_apCorr"])
      s0.aliases).containsField (a ++ "_apCorr") = true := by
    rw [Schema.containsField, haApc]
    rfl
  have hB : ApCorrInfo.ofSchema
      (Schema.mk (s0.fields ++ [a ++ "_apCorr", a ++ "_apCorrErr", a ++ "_flag_apCorr"])
        s0.aliases) a (some b)
      = some (⟨b, a ++ "_instFlux", a ++ "_instFluxErr", b ++ "_instFlux",
          b ++ "_instFluxErr", m1, m2, m3, false,
          s0.fields.length, s0.fields.length + 1, s0.fields.length + 3⟩,
        Schema.mk
          ((s0.fields ++ [a ++ "_apCorr", a ++ "_apCorrErr", a ++ "_flag_apCorr"])
            ++ [b ++ "_flag_apCorr"])
          ((b ++ "_apCorrErr", a ++ "_apCorrErr") :: (b ++ "_apCorr", a ++ "_apCorr")
            :: s0.aliases)) := by
    simp [ApCorrInfo.ofSchema, hkb1, hkb2, hkb3, beq_eq_false_iff_ne.mpr hba, hcont,
      Schema.setAlias, hfind_bApc, hfind_bApcErr, Schema.addField]
  refine ⟨_, _, _, _, hA, hB, rfl, rfl, rfl, rfl, rfl, ?_⟩
  simp

/-- Witness for C8: on a concrete schema with fields for algorithms `A`
and `B`, building the direct info of `A` and then the proxy info of `B`
shares the correction keys and separates the flag keys. -/
theorem apCorrInfo_proxy_alias_witness :
    ∃ iA s1 iB s2,
      ApCorrInfo.ofSchema w8Schema "A" none = some (iA, s1)
      ∧ ApCorrInfo.ofSchema s1 "A" (some "B") = some (iB, s2)
      ∧ iA.doApCorrColumn = true
      ∧ iB.doApCorrColumn = false
      ∧ s2.fields = s1.fields ++ ["B" ++ "_flag_apCorr"]
      ∧ iB.apCorrKey = iA.apCorrKey
      ∧ iB.apCorrErrKey = iA.apCorrErrKey
      ∧ iB.apCorrFlagKey ≠ iA.apCorrFlagKey :=
  apCorrInfo_proxy_alias w8Schema "A" "B" (by decide) (by decide) (by decide)
    (by decide) (by decide) (by decide) (by decide) (by decide) (by decide)
    (by decide) (by decide) (by decide)
